/-
Verification of the recursive research orchestrator (deep-research.ts), its
budget calculators, query planner, text-learning recovery parser, references
assembler, and the PubMed search helper (pubmed.ts).

Modelling conventions:
* Every external, effectful collaborator (the language-model service, the web
  search client, JSON.parse) is represented by an explicit argument: either an
  oracle tree describing the outcome of every branch of the traversal, or a
  function argument standing for the collaborator.  Pure computations are
  translated directly from the TypeScript source.
* JavaScript numbers that the source only ever combines with integer
  arithmetic are modelled as Int (so JS negative intermediate values are
  preserved) or as Nat where the source value is a count that is never
  negative on the relevant domain.
* JavaScript string operations are re-implemented on Lean String/List Char.
  The JS \s character class is modelled by its ASCII fragment (space, tab,
  newline, carriage return, vertical tab, form feed), which is exact for all
  inputs made of ASCII text.
-/
import Mathlib

/-- Character class of the JavaScript regex \s, restricted to ASCII. -/
def isJsWs (c : Char) : Bool :=
  c == (' ') || c == ('\t') || c == ('\n') || c == ('\r') || c == ('\x0b') || c == ('\x0c')

/-- List-level trim used to model String.prototype.trim. -/
def jsTrimList (cs : List Char) : List Char :=
  ((cs.dropWhile isJsWs).reverse.dropWhile isJsWs).reverse

/-- Model of String.prototype.trim (ASCII whitespace). -/
def jsTrim (s : String) : String :=
  String.mk (jsTrimList s.data)

/-- Drop leading JS whitespace from a character list. -/
def dropJsWs (cs : List Char) : List Char :=
  cs.dropWhile isJsWs

/-- Model of Array.prototype.join with a separator, as used on string arrays. -/
def joinWith (sep : String) : List String → String
  | [] => ""
  | [s] => s
  | s :: rest => s ++ sep ++ joinWith sep rest

/-- Model of String.prototype.split on a set of single separator characters
(used for the JS regexes split(/\n|,|;/), split(/\n|•|-|\*/) and split on a
newline).  Empty fields are kept, as in JavaScript. -/
def splitAnyOf (seps : List Char) : List Char → List (List Char)
  | [] => [[]]
  | c :: rest =>
    match splitAnyOf seps rest with
    | [] => if seps.contains c then [[], []] else [[c]]
    | h :: t => if seps.contains c then [] :: h :: t else (c :: h) :: t

/-- Split a string into its lines, modelling split on a newline character. -/
def splitLines (s : String) : List String :=
  (splitAnyOf [('\n')] s.data).map String.mk

/-- First index of a character in a list, modelling String.prototype.indexOf
for a single-character needle. -/
def firstIdxOf (c : Char) : List Char → Option Nat
  | [] => none
  | d :: rest => if d == c then some 0 else (firstIdxOf c rest).map (fun k => k + 1)

/-- Last index of a character in a list, modelling String.prototype.lastIndexOf
for a single-character needle. -/
def lastIdxOf (c : Char) (cs : List Char) : Option Nat :=
  (firstIdxOf c cs.reverse).map (fun k => cs.length - 1 - k)

/-- Case-sensitive or case-insensitive literal prefix test (ASCII case fold),
modelling how a JS regex literal matches at a position. -/
def prefixMatches (ci : Bool) : List Char → List Char → Bool
  | [], _ => true
  | _ :: _, [] => false
  | p :: ps, c :: cs =>
    (if ci then p.toLower == c.toLower else p == c) && prefixMatches ci ps cs

/-- Scan a string left to right and return the first successful attempt, the
way a JS regex engine advances its start position until a match is found. -/
def scanFirst {β : Type} (attempt : List Char → Option β) : List Char → Option β
  | [] => none
  | c :: rest =>
    match attempt (c :: rest) with
    | some b => some b
    | none => scanFirst attempt rest

/-- Model of String.prototype.includes for a nonempty needle. -/
def containsSub (s pat : String) : Bool :=
  (scanFirst (fun cs => if pat.data.isPrefixOf cs then some true else none) s.data).isSome

/-- ASCII lowercasing, modelling String.prototype.toLowerCase on ASCII text. -/
def lowerStr (s : String) : String :=
  String.mk (s.data.map Char.toLower)

/-- One record of the PubMed article schema (pubmed.ts, PubMedArticleSchema). -/
structure PubMedArticle where
  id : String
  title : String
  abstract : Option String
  authors : Option (List String)
  journal : Option String
  publicationDate : Option String
  doi : Option String
  url : String
deriving DecidableEq

/-- Result record of deepResearch (deep-research.ts, type ResearchResult). -/
structure ResearchResult where
  learnings : List String
  visitedUrls : List String
  pubMedArticles : List PubMedArticle
deriving DecidableEq

/-- Model of the JS expression [...new Set(list)]: keep the first occurrence of
each value, in encounter order. -/
def jsSetDedup {α : Type} [DecidableEq α] (l : List α) : List α :=
  l.foldl (fun acc x => if x ∈ acc then acc else acc ++ [x]) []

/-- Deduplication of PubMed articles by id (deep-research.ts lines 1062-1067):
the reduce keeps the first article seen for each id. -/
def dedupById (l : List PubMedArticle) : List PubMedArticle :=
  l.foldl (fun acc a => if acc.any (fun b => b.id == a.id) then acc else acc ++ [a]) []

/-- Per-level aggregation of branch results (deep-research.ts lines 1058-1073):
learnings and visited urls are unioned through a JS Set, PubMed articles are
deduplicated by id. -/
def aggregate (results : List ResearchResult) : ResearchResult :=
  { learnings := jsSetDedup (results.flatMap ResearchResult.learnings)
    visitedUrls := jsSetDedup (results.flatMap ResearchResult.visitedUrls)
    pubMedArticles := dedupById (results.flatMap ResearchResult.pubMedArticles) }

/-- Outcome oracle for one traversal of deepResearch.  Each level carries one
entry per planned SERP query (the list produced by generateSerpQueries).  A
`none` entry is a branch whose Firecrawl search, PubMed search or learning
generation threw (including a timeout): the catch block at lines 1042-1053
turns it into an empty result.  A `some (newLearnings, newUrls, newPubMed,
child)` entry is a branch whose search and extraction succeeded with the given
data; `child` is the oracle for the recursive call that the branch performs
when depth remains.  The query strings themselves, the research goals and the
follow-up questions only influence prompts sent to the model, so they are
absorbed into the oracle. -/
inductive Oracle : Type where
  | mk : List (Option (List String × List String × List PubMedArticle × Oracle)) → Oracle

/-- Branch description: the entry type of one oracle level. -/
abbrev BranchSpec := Option (List String × List String × List PubMedArticle × Oracle)

/-- Child breadth computed at deep-research.ts line 985:
Math.ceil(breadth * 0.75).  0.75 is exactly representable, so the JS value is
the rational ceiling of 3*breadth/4, which over Nat is (3*breadth + 3) / 4. -/
def newBreadth (breadth : Nat) : Nat :=
  (3 * breadth + 3) / 4

/-- Terminal branch outcome (deep-research.ts lines 1030-1041 for a successful
branch with newDepth = 0, lines 1042-1053 for a failed branch). -/
def terminalBranch (ls us : List String) (ps : List PubMedArticle) : BranchSpec → ResearchResult
  | none => ⟨[], [], []⟩
  | some (nl, nu, np, _) => ⟨ls ++ nl, us ++ nu, ps ++ np⟩

/-- The recursive orchestrator deepResearch (deep-research.ts lines 913-1074),
with the accumulator arguments learnings, visitedUrls, pubMedArticles.  The
source computes newDepth = depth - 1 and recurses exactly when newDepth > 0,
that is when depth is at least 2; the depth = 0 and depth = 1 patterns are the
terminal case.  A successful branch extends the inherited accumulator with its
own data before recursing or returning; a failed branch returns the empty
result.  The per-level aggregation is `aggregate`. -/
def deepResearch : Nat → Nat → Oracle → List String → List String → List PubMedArticle → ResearchResult
  | _, 0, Oracle.mk branches, ls, us, ps => aggregate (branches.map (terminalBranch ls us ps))
  | _, 1, Oracle.mk branches, ls, us, ps => aggregate (branches.map (terminalBranch ls us ps))
  | breadth, d + 2, Oracle.mk branches, ls, us, ps =>
    aggregate (branches.map fun b =>
      match b with
      | none => ⟨[], [], []⟩
      | some (nl, nu, np, child) =>
        deepResearch (newBreadth breadth) (d + 1) child (ls ++ nl) (us ++ nu) (ps ++ np))

/-- One branch of deepResearch in the shape of the source (lines 1003-1053):
compute newDepth = depth - 1, recurse with breadth ceil(0.75 * breadth) when
newDepth > 0, return the extended accumulator when newDepth = 0, and return
the empty result when the branch failed. -/
def branchRun (breadth depth : Nat) (ls us : List String) (ps : List PubMedArticle) : BranchSpec → ResearchResult
  | none => ⟨[], [], []⟩
  | some (nl, nu, np, child) =>
    if 0 < depth - 1 then
      deepResearch (newBreadth breadth) (depth - 1) child (ls ++ nl) (us ++ nu) (ps ++ np)
    else ⟨ls ++ nl, us ++ nu, ps ++ np⟩

/-- A path of successful branches through an oracle: some branch at this level
succeeded and, whenever that branch recurses (depth at least 2), its child
level again contains a successful path. -/
def successPath : Nat → Oracle → Prop
  | 0, Oracle.mk branches => ∃ nl nu np child, Option.some (nl, nu, np, child) ∈ branches
  | 1, Oracle.mk branches => ∃ nl nu np child, Option.some (nl, nu, np, child) ∈ branches
  | d + 2, Oracle.mk branches =>
    ∃ nl nu np child, Option.some (nl, nu, np, child) ∈ branches ∧ successPath (d + 1) child

/-- Per-learning token ceiling (deep-research.ts lines 40-56). -/
def calculateTokenLimit (insightDetail : Int) : Int :=
  if insightDetail ≤ 3 then 1000 + (insightDetail - 1) * 500
  else if insightDetail ≤ 7 then 2000 + (insightDetail - 4) * 1000
  else 6000 + (insightDetail - 8) * 1333

/-- Report token ceiling (deep-research.ts lines 60-76). -/
def calculateReportTokenLimit (insightDetail : Int) : Int :=
  if insightDetail ≤ 3 then 8000 + (insightDetail - 1) * 3000
  else if insightDetail ≤ 7 then 14000 + (insightDetail - 4) * 3000
  else 26000 + (insightDetail - 8) * 3000

/-- Learning count per branch (deep-research.ts lines 79-88). -/
def calculateLearningsCount (insightDetail breadth : Int) : Int :=
  if 8 ≤ insightDetail then max 3 (min 5 (breadth - 1))
  else if 5 ≤ insightDetail then max 4 (min 7 breadth)
  else max 5 (min 10 breadth)

/-- One planned SERP query (deep-research.ts, the elements produced by
generateSerpQueries). -/
structure SerpQuery where
  query : String
  researchGoal : String
deriving DecidableEq

/-- Prefix test for the JS regex /^\s*\d+\./ on a character list. -/
def numberDotStart (cs : List Char) : Bool :=
  let ws := dropJsWs cs
  let ds := ws.takeWhile Char.isDigit
  !ds.isEmpty && ((ws.drop ds.length).head? == some ('.'))

/-- Prefix test for /^\s*\d+\./ on a line (deep-research.ts line 213). -/
def matchesNumberDot (line : String) : Bool :=
  numberDotStart line.data

/-- Match of the JS regex /^\s*\d+\.\s*(.+)/ on a line (deep-research.ts line
203).  On success, returns the raw text after the dot; the \s* before the
capture only strips whitespace that the callers trim away again, so the raw
remainder is returned and trimmed at the use site, exactly as the source
applies .trim() to the capture.  The capture requires at least one character
after the dot. -/
def matchNumberedQuery (line : String) : Option String :=
  let ws := dropJsWs line.data
  let ds := ws.takeWhile Char.isDigit
  if ds.isEmpty then none
  else
    match ws.drop ds.length with
    | c :: tail => if c == ('.') && !tail.isEmpty then some (String.mk tail) else none
    | [] => none

/-- The line loop of the text fallback of generateSerpQueries
(deep-research.ts lines 193-228): numbered lines start a new query, other
nonempty lines (except further number-dot lines, and except the first line)
are appended to the current research goal. -/
def parseQueriesLoop : List String → Nat → Option SerpQuery → List SerpQuery → List SerpQuery
  | [], _, cur, acc => acc ++ cur.toList
  | l :: rest, i, cur, acc =>
    let line := jsTrim l
    match matchNumberedQuery line with
    | some rawCapture =>
      parseQueriesLoop rest (i + 1) (some { query := jsTrim rawCapture, researchGoal := "" }) (acc ++ cur.toList)
    | none =>
      match cur with
      | some c =>
        if line != "" && !matchesNumberDot line && i != 0 then
          parseQueriesLoop rest (i + 1)
            (some { query := c.query
                    researchGoal := if c.researchGoal = "" then line else c.researchGoal ++ (" ") ++ line })
            acc
        else parseQueriesLoop rest (i + 1) (some c) acc
      | none => parseQueriesLoop rest (i + 1) none acc

/-- Parse SERP queries out of a free-text model response (deep-research.ts
lines 192-228). -/
def parseQueriesFromText (content : String) : List SerpQuery :=
  parseQueriesLoop (splitLines content) 0 none []

/-- The deterministic fallback queries built by string templating on the topic
(deep-research.ts lines 232-241). -/
def defaultQueries (query : String) : List SerpQuery :=
  [ { query := ("Latest advancements in ") ++ query
      researchGoal := ("This query aims to find the most recent developments and breakthroughs in ") ++ query ++ (". The research will focus on identifying cutting-edge technologies, methodologies, and applications that have emerged in the past 1-2 years.") }
  , { query := ("Real-world applications of ") ++ query
      researchGoal := ("This query seeks to discover practical implementations and use cases of ") ++ query ++ (" in various industries and sectors. The research will examine how the technology or concept is being applied to solve real-world problems and the impact it has had.") } ]

/-- The generic queries of the ultimate fallback (deep-research.ts lines
252-261); the source repeats the same two templated entries. -/
def genericQueries (query : String) : List SerpQuery :=
  [ { query := ("Latest advancements in ") ++ query
      researchGoal := ("This query aims to find the most recent developments and breakthroughs in ") ++ query ++ (". The research will focus on identifying cutting-edge technologies, methodologies, and applications that have emerged in the past 1-2 years.") }
  , { query := ("Real-world applications of ") ++ query
      researchGoal := ("This query seeks to discover practical implementations and use cases of ") ++ query ++ (" in various industries and sectors. The research will examine how the technology or concept is being applied to solve real-world problems and the impact it has had.") } ]

/-- Outcome of the effectful collaborators inside generateSerpQueries:
either structured generation succeeded with a query list, or it threw, in
which case the fenced-JSON extraction from the error text may have recovered a
query list, and the free-text generation either returned a response content or
threw. -/
inductive QueryGenEnv where
  | structuredOk (queries : List SerpQuery)
  | structuredErr (fencedJson : Option (List SerpQuery)) (textResponse : Option String)

/-- Model of generateSerpQueries (deep-research.ts lines 117-266).  All
failure paths are caught in the source, so the model is a total function:
structured success and fenced-JSON recovery slice their list to numQueries;
the text fallback parses numbered lines and falls back to the templated
default queries when nothing parses; a throwing text fallback returns the
templated generic queries. -/
def generateSerpQueries (env : QueryGenEnv) (query : String) (numQueries : Nat) : List SerpQuery :=
  match env with
  | QueryGenEnv.structuredOk qs => qs.take numQueries
  | QueryGenEnv.structuredErr (some qs) _ => qs.take numQueries
  | QueryGenEnv.structuredErr none (some content) =>
    let queries := if content = "" then [] else parseQueriesFromText content
    if queries.isEmpty then (defaultQueries query).take numQueries
    else queries.take numQueries
  | QueryGenEnv.structuredErr none none => (genericQueries query).take numQueries

/-- One detailed learning (deep-research.ts, interface DetailedLearning). -/
structure DetailedLearning where
  title : String
  content : String
  sources : List String
  keyPoints : List String
deriving DecidableEq

/-- Return value of parseTextLearnings.  The source returns an object without
the detailedLearnings field when that list is empty; the model always carries
the list, with the empty list standing for the absent field. -/
structure ParsedLearnings where
  learnings : List String
  followUpQuestions : List String
  detailedLearnings : List DetailedLearning
deriving DecidableEq

/-- The generic follow-up questions used as static fallback (deep-research.ts
lines 423-427 and 589-593). -/
def genericFollowUps : List String :=
  [("What are the most recent developments in this field?"),
   ("What are the practical applications of these findings?"),
   ("What are the limitations or challenges in this area?")]

/-- Digits followed by a literal dot, the \d+\. regex fragment. -/
def digitsDotStart (cs : List Char) : Bool :=
  let ds := cs.takeWhile Char.isDigit
  !ds.isEmpty && ((cs.drop ds.length).head? == some ('.'))

/-- Match of /"key"\s*:\s*"([^"]+)"/ at one position: the quoted key, optional
whitespace, a colon, optional whitespace, and a nonempty quoted body. -/
def quotedKeyAt (key : List Char) (cs : List Char) : Option String :=
  if key.isPrefixOf cs then
    match dropJsWs (cs.drop key.length) with
    | ':' :: r2 =>
      match dropJsWs r2 with
      | '"' :: r4 =>
        let body := r4.takeWhile (fun d => d != ('"'))
        if !body.isEmpty && ((r4.drop body.length).head? == some ('"')) then some (String.mk body)
        else none
      | _ => none
    | _ => none
  else none

/-- First match of /"key"\s*:\s*"([^"]+)"/ in a string (the jsonTitleMatch and
jsonContentMatch regexes of deep-research.ts lines 500-501). -/
def jsonFieldMatch (key : String) (s : String) : Option String :=
  scanFirst (quotedKeyAt (('"') :: key.data ++ [('"')])) s.data

/-- Match of /"key"\s*:\s*\[([^\]]+)\]/ at one position. -/
def bracketKeyAt (key : List Char) (cs : List Char) : Option String :=
  if key.isPrefixOf cs then
    match dropJsWs (cs.drop key.length) with
    | ':' :: r2 =>
      match dropJsWs r2 with
      | '[' :: r4 =>
        let body := r4.takeWhile (fun d => d != (']'))
        if !body.isEmpty && ((r4.drop body.length).head? == some (']')) then some (String.mk body)
        else none
      | _ => none
    | _ => none
  else none

/-- First match of /"key"\s*:\s*\[([^\]]+)\]/ in a string (the
jsonSourcesMatch regex of deep-research.ts line 509). -/
def bracketFieldMatch (key : String) (s : String) : Option String :=
  scanFirst (bracketKeyAt (('"') :: key.data ++ [('"')])) s.data

/-- Label alternative of a labeled-field regex: either a plain literal or a
literal followed by \d+. -/
inductive LabelPat where
  | lit (s : String)
  | litNum (s : String)

/-- Length matched by one label alternative at one position. -/
def labelMatchLen (ci : Bool) (p : LabelPat) (cs : List Char) : Option Nat :=
  match p with
  | LabelPat.lit s => if prefixMatches ci s.data cs then some s.data.length else none
  | LabelPat.litNum s =>
    if prefixMatches ci s.data cs then
      let ds := (cs.drop s.data.length).takeWhile Char.isDigit
      if ds.isEmpty then none else some (s.data.length + ds.length)
    else none

/-- Regex backtracking for /\s*([^\n]+)/ when the greedy whitespace run
reaches the end of the string: the engine gives back the trailing whitespace
characters one by one, so the capture becomes the last character of the run
that is not a newline, if any. -/
def backtrackLine (w : List Char) : Option String :=
  ((w.reverse.dropWhile (fun d => d == ('\n'))).head?).map (fun c => String.mk [c])

/-- Capture of /\s*([^\n]+)/ at one position: greedy whitespace, then a
nonempty capture running to the next newline or the end. -/
def lineCapture (cs : List Char) : Option String :=
  let w := cs.takeWhile isJsWs
  match cs.drop w.length with
  | c :: rest => some (String.mk ((c :: rest).takeWhile (fun d => d != ('\n'))))
  | [] => backtrackLine w

/-- Capture of /:?\s*([^\n]+)/: the optional colon is consumed greedily and
given back if the remainder cannot produce a capture. -/
def lineCaptureAfterColon (cs : List Char) : Option String :=
  match cs with
  | ':' :: rest =>
    match lineCapture rest with
    | some r => some r
    | none => lineCapture cs
  | _ => lineCapture cs

/-- Characters captured lazily until the earliest position where one of the
stop literals begins (the (?=(?:stops)|$) lookahead); the first captured
character is unconditional because the capture group requires at least one
character. -/
def takeUntilStop (ci : Bool) (stops : List (List Char)) : List Char → List Char
  | [] => []
  | c :: rest =>
    if stops.any (fun p => prefixMatches ci p (c :: rest)) then []
    else c :: takeUntilStop ci stops rest

/-- Capture of /\s*([\s\S]+?)(?=(?:stops)|$)/ at one position.  When the
greedy whitespace run reaches the end of the string the engine backtracks one
character, capturing the last whitespace character. -/
def lazyCapture (ci : Bool) (stops : List (List Char)) (cs : List Char) : Option String :=
  let w := cs.takeWhile isJsWs
  match cs.drop w.length with
  | c :: rest => some (String.mk (c :: takeUntilStop ci stops rest))
  | [] => (w.reverse.head?).map (fun c => String.mk [c])

/-- Capture of /:?\s*([\s\S]+?)(?=(?:stops)|$)/ with the optional colon. -/
def lazyCaptureAfterColon (ci : Bool) (stops : List (List Char)) (cs : List Char) : Option String :=
  match cs with
  | ':' :: rest =>
    match lazyCapture ci stops rest with
    | some r => some r
    | none => lazyCapture ci stops cs
  | _ => lazyCapture ci stops cs

/-- Try the label alternatives in regex order at one position, falling through
to the next alternative when its capture fails. -/
def labeledAttempt (ci : Bool) (capture : List Char → Option String) :
    List LabelPat → List Char → Option String
  | [], _ => none
  | p :: ps, cs =>
    match labelMatchLen ci p cs with
    | some n =>
      match capture (cs.drop n) with
      | some r => some r
      | none => labeledAttempt ci capture ps cs
    | none => labeledAttempt ci capture ps cs

/-- First match of /(?:alternatives):?\s*([^\n]+)/ in a string (the titleMatch
regex of deep-research.ts line 530). -/
def labeledLineMatch (ci : Bool) (pats : List LabelPat) (s : String) : Option String :=
  scanFirst (labeledAttempt ci lineCaptureAfterColon pats) s.data

/-- First match of /(?:alternatives):?\s*([\s\S]+?)(?=(?:stops)|$)/ in a
string (the contentMatch, sourcesMatch and keyPointsMatch regexes of
deep-research.ts lines 531-533). -/
def labeledLazyMatch (ci : Bool) (pats : List LabelPat) (stops : List String) (s : String) : Option String :=
  scanFirst (labeledAttempt ci (lazyCaptureAfterColon ci (stops.map String.data)) pats) s.data

/-- Model of replace(/^"\x7c"$/g, ...): strip one leading and one trailing
double quote. -/
def stripEdgeQuotes (s : String) : String :=
  let cs :=
    match s.data with
    | '"' :: rest => rest
    | cs => cs
  String.mk
    (match cs.reverse with
     | '"' :: rest => rest.reverse
     | _ => cs)

/-- Split, trim every field and drop the empty ones, the common shape of the
sources and key-points extraction (deep-research.ts lines 512-515, 543-546,
553-556). -/
def cleanSplit (seps : List Char) (s : String) : List String :=
  ((splitAnyOf seps s.data).map (fun g => jsTrim (String.mk g))).filter (fun x => x != "")

/-- The fields of a JSON-like sources array: split on commas, trim, strip the
edge quotes, drop empties (deep-research.ts lines 511-515). -/
def jsonSourcesList (body : String) : List String :=
  ((splitAnyOf [(',')] body.data).map (fun g => stripEdgeQuotes (jsTrim (String.mk g)))).filter
    (fun x => x != "")

/-- Bullet marker test for the fragment (?:\d+\.|-|\*|•). -/
def startsBulletMarker (cs : List Char) : Bool :=
  match cs with
  | c :: _ =>
    if c == ('-') || c == ('*') || c == ('•') then true
    else digitsDotStart cs
  | [] => false

/-- A line that opens a bullet item: optional whitespace then a bullet
marker. -/
def isBulletLine (line : String) : Bool :=
  startsBulletMarker (dropJsWs line.data)

/-- Group the lines of a section into bullet items: each bullet line opens an
item, following non-bullet lines belong to the open item. -/
def bulletItemsGo (cur : List String) : List String → List (List String)
  | [] => [cur.reverse]
  | l :: rest =>
    if isBulletLine l then cur.reverse :: bulletItemsGo [l] rest
    else bulletItemsGo (l :: cur) rest

/-- Line-level reading of the question-extraction regex
/(?:^|\n)\s*(?:\d+\.|-|\*|•)\s*(.+?)(?=(?:\n\s*(?:\d+\.|-|\*|•))|$)/gs of
deep-research.ts line 478: one match per bullet line, each running to the line
before the next bullet line or to the end; lines before the first bullet line
match nothing.  On degenerate items whose bullet carries no content before the
next bullet the regex capture spills into the following item, but both
readings produce only fields that the subsequent nonempty filter drops or
trims to the same text. -/
def bulletItems (lines : List String) : List (List String) :=
  match lines.dropWhile (fun l => !isBulletLine l) with
  | [] => []
  | l :: rest => bulletItemsGo [l] rest

/-- Model of replace(/^\s*(?:\d+\.|-|\*|•)\s*/, ...) composed with trim
(deep-research.ts line 482): the leading whitespace and bullet marker of an
item are removed; stripping the whitespace when no marker is present is
absorbed by the following trim. -/
def stripBulletMarker (s : String) : String :=
  let cs := dropJsWs s.data
  let cs2 :=
    match cs with
    | c :: rest =>
      if c == ('-') || c == ('*') || c == ('•') then rest
      else
        (let ds := cs.takeWhile Char.isDigit
         if !ds.isEmpty && ((cs.drop ds.length).head? == some ('.')) then (cs.drop ds.length).tail
         else cs)
    | [] => []
  String.mk (dropJsWs cs2)

/-- Question texts extracted from a follow-up section (deep-research.ts lines
478-485): each bullet item is stripped of its marker, trimmed, empty items are
dropped and the list is sliced. -/
def extractQuestions (sec : String) (numFollowUpQuestions : Nat) : List String :=
  (((bulletItems (splitLines sec)).map
      (fun g => jsTrim (stripBulletMarker (joinWith ("\n") g)))).filter
    (fun q => q != "")).take numFollowUpQuestions

/-- Test of /^\s*(?:Learning|\d+\.|Key Finding|Finding)/ (deep-research.ts
line 492). -/
def startsLearningMarker (s : String) : Bool :=
  let cs := dropJsWs s.data
  prefixMatches false ("Learning").data cs || digitsDotStart cs ||
    prefixMatches false ("Key Finding").data cs || prefixMatches false ("Finding").data cs

/-- Test of /^[A-Z][^\n.]+:/ (deep-research.ts line 494): an ASCII capital,
then at least one character that is neither a newline nor a dot, then a
colon. -/
def matchesCapitalColon (s : String) : Bool :=
  match s.data with
  | c :: rest =>
    decide (('A') ≤ c) && decide (c ≤ ('Z')) &&
      (((rest.takeWhile (fun d => d != ('\n') && d != ('.'))).drop 1).contains (':'))
  | [] => false

/-- The learning-section test of deep-research.ts lines 491-496. -/
def isLearningSection (sec : String) : Bool :=
  startsLearningMarker sec || containsSub sec ("Title:") || matchesCapitalColon sec ||
    (jsonFieldMatch ("title") sec).isSome

/-- The follow-up-section test of deep-research.ts lines 472-476. -/
def isFollowUpSection (sec : String) : Bool :=
  let lower := lowerStr sec
  containsSub lower ("follow-up questions") || containsSub lower ("follow up questions") ||
    containsSub lower ("further research")

/-- Detailed-learning extraction from one section at medium or high insight
detail (deep-research.ts lines 498-573): first the JSON-like title/content
pair, then the labeled text format, otherwise the whole trimmed section as a
plain learning.  Returns the simple learning pushed alongside the optional
detailed learning. -/
def detailedOfSection (sec : String) : String × Option DetailedLearning :=
  match jsonFieldMatch ("title") sec, jsonFieldMatch ("content") sec with
  | some rawTitle, some rawContent =>
    let title := jsTrim rawTitle
    let content := jsTrim rawContent
    let sources :=
      match bracketFieldMatch ("sources") sec with
      | some body => jsonSourcesList body
      | none => []
    (title ++ ("\n\n") ++ content,
      some { title := title, content := content, sources := sources
             keyPoints := [("Key points not explicitly provided")] })
  | _, _ =>
    match labeledLineMatch false
        [LabelPat.lit ("Title"), LabelPat.litNum ("Learning "), LabelPat.litNum ("Key Finding ")] sec with
    | some rawTitle =>
      let title := jsTrim rawTitle
      let content :=
        match labeledLazyMatch true
            [LabelPat.lit ("Content"), LabelPat.lit ("Description"), LabelPat.lit ("Details")]
            [("Sources"), ("Key Points"), ("References")] sec with
        | some rawContent => jsTrim rawContent
        | none => sec
      let sources :=
        match labeledLazyMatch true [LabelPat.lit ("Sources"), LabelPat.lit ("References")]
            [("Key Points")] sec with
        | some rawSources => cleanSplit [('\n'), (','), (';')] rawSources
        | none => []
      let keyPoints :=
        match labeledLazyMatch true [LabelPat.lit ("Key Points"), LabelPat.lit ("Main Points")] [] sec with
        | some rawKp => cleanSplit [('\n'), ('•'), ('-'), ('*')] rawKp
        | none => []
      (title ++ ("\n\n") ++ content,
        some { title := title, content := content, sources := sources
               keyPoints := if keyPoints.isEmpty then [("Key points not explicitly provided")] else keyPoints })
    | none => (sec, none)

/-- Section splitter for the regex split(/\n\s*\n+/) of deep-research.ts line
457.  A separator match starts at a newline whose following whitespace run
contains another newline and extends to the last newline of that run; trailing
non-newline whitespace of the run stays with the next section.  The fuel
argument makes the recursion structural; the wrapper passes the input length,
which suffices because every step consumes at least one character. -/
def splitSectionsAux : Nat → List Char → List Char → List (List Char)
  | _, [], cur => [cur.reverse]
  | 0, cs, cur => [cur.reverse ++ cs]
  | fuel + 1, c :: rest, cur =>
    let run := rest.takeWhile isJsWs
    if c == ('\n') && run.contains ('\n') then
      cur.reverse :: splitSectionsAux fuel (rest.drop ((lastIdxOf ('\n') run).getD 0 + 1)) []
    else splitSectionsAux fuel rest (c :: cur)

/-- Split a raw model response into sections at blank-line separators. -/
def splitSections (s : String) : List String :=
  (splitSectionsAux s.data.length s.data []).map String.mk

/-- The section loop of parseTextLearnings (deep-research.ts lines 464-582),
carrying the learnings, follow-up questions and detailed learnings collected
so far.  A follow-up section replaces the question list only when the
extraction regex matched at all; a learning-shaped section is parsed in detail
at insight detail of at least 5; any other nonempty section is kept as a plain
learning while fewer than numLearnings have been collected. -/
def sectionsLoop (insightDetail : Int) (numLearnings numFollowUpQuestions : Nat) :
    List String → List String → List String → List DetailedLearning →
    List String × List String × List DetailedLearning
  | [], ls, fus, dls => (ls, fus, dls)
  | sec :: rest, ls, fus, dls =>
    let trimmed := jsTrim sec
    if trimmed = "" then sectionsLoop insightDetail numLearnings numFollowUpQuestions rest ls fus dls
    else if isFollowUpSection trimmed then
      let raw := bulletItems (splitLines trimmed)
      sectionsLoop insightDetail numLearnings numFollowUpQuestions rest ls
        (if raw.isEmpty then fus else extractQuestions trimmed numFollowUpQuestions) dls
    else if isLearningSection trimmed then
      if 5 ≤ insightDetail then
        match detailedOfSection trimmed with
        | (simple, some dl) =>
          sectionsLoop insightDetail numLearnings numFollowUpQuestions rest (ls ++ [simple]) fus (dls ++ [dl])
        | (simple, none) =>
          sectionsLoop insightDetail numLearnings numFollowUpQuestions rest (ls ++ [simple]) fus dls
      else sectionsLoop insightDetail numLearnings numFollowUpQuestions rest (ls ++ [trimmed]) fus dls
    else if ls.length < numLearnings then
      sectionsLoop insightDetail numLearnings numFollowUpQuestions rest (ls ++ [trimmed]) fus dls
    else sectionsLoop insightDetail numLearnings numFollowUpQuestions rest ls fus dls

/-- One element of a parsed JSON learnings array: a plain string, or an object
whose title, content, sources and keyPoints fields may each be absent. -/
inductive JLearning where
  | plain (s : String)
  | obj (title content : Option String) (sources keyPoints : Option (List String))

/-- The projection of a JSON.parse result that parseTextLearnings consumes: an
optional learnings array and an optional followUpQuestions array.  A value of
none for the whole record models both a JSON.parse exception and a parse
result without a learnings array. -/
structure JsonLearnings where
  learnings : Option (List JLearning)
  followUpQuestions : Option (List String)

/-- The learnings-array loop of the JSON branch (deep-research.ts lines
400-415): strings are kept as plain learnings; objects with truthy title and
content contribute both a detailed learning and a plain learning; everything
else is skipped. -/
def jsonLearningsFold : List JLearning → List String × List DetailedLearning
  | [] => ([], [])
  | JLearning.plain s :: rest =>
    let p := jsonLearningsFold rest
    (s :: p.1, p.2)
  | JLearning.obj (some tv) (some cv) srcs kps :: rest =>
    if tv != "" && cv != "" then
      let p := jsonLearningsFold rest
      ((tv ++ ("\n\n") ++ cv) :: p.1,
        { title := tv, content := cv, sources := srcs.getD []
          keyPoints := kps.getD [("Key points not explicitly provided")] } :: p.2)
    else jsonLearningsFold rest
  | JLearning.obj _ _ _ _ :: rest => jsonLearningsFold rest

/-- Model of parseTextLearnings (deep-research.ts lines 379-611).  The builtin
JSON.parse is an external collaborator and is passed as the argument jp,
returning the projection of the parsed object when the parse succeeds and the
result carries a learnings array.  The JSON branch is attempted only when the
text contains an opening brace before a closing brace; otherwise, and whenever
the JSON branch yields nothing, the section-based text parsing runs.  The
source catches every parse failure, so the model is a total function. -/
def parseTextLearnings (jp : String → Option JsonLearnings) (text : String) (insightDetail : Int)
    (numLearnings numFollowUpQuestions : Nat) : ParsedLearnings :=
  let jsonResult :=
    match firstIdxOf ('\x7b') text.data, lastIdxOf ('\x7d') text.data with
    | some js, some je =>
      if js < je then
        match jp (String.mk ((text.data.drop js).take (je + 1 - js))) with
        | some jobj =>
          match jobj.learnings with
          | some arr =>
            let p := jsonLearningsFold arr
            some { learnings := p.1
                   followUpQuestions :=
                     match jobj.followUpQuestions with
                     | some f => f.take numFollowUpQuestions
                     | none => genericFollowUps.take numFollowUpQuestions
                   detailedLearnings := p.2 }
          | none => none
        | none => none
      else none
    | _, _ => none
  match jsonResult with
  | some r => r
  | none =>
    let p := sectionsLoop insightDetail numLearnings numFollowUpQuestions (splitSections text) [] [] []
    { learnings := p.1.take numLearnings
      followUpQuestions := if p.2.1.isEmpty then genericFollowUps.take numFollowUpQuestions else p.2.1
      detailedLearnings := p.2.2 }

/-- One web source of the citation table (deep-research.ts lines 691-695). -/
structure WebSource where
  id : String
  url : String
deriving DecidableEq

/-- One PubMed source of the citation table (deep-research.ts lines 697-706). -/
structure PubMedSource where
  id : String
  url : String
  title : String
  authors : String
  journal : String
  publicationDate : String
  doi : Option String
deriving DecidableEq

/-- JS fallback on a falsy string: the empty string falls back to the
default. -/
def jsOrDefault (s dflt : String) : String :=
  if s = "" then dflt else s

/-- The web source table built by writeFinalReport (deep-research.ts lines
691-695): one source per visited url, in index order, with id web1, web2, .... -/
def mkWebSources (visitedUrls : List String) : List WebSource :=
  visitedUrls.enum.map (fun p => { id := ("web") ++ toString (p.1 + 1), url := p.2 })

/-- The PubMed source table built by writeFinalReport (deep-research.ts lines
697-706): one source per article, in index order, with id pubmed1, pubmed2,
..., and the authors, journal and date fields defaulted when falsy. -/
def mkPubMedSources (articles : List PubMedArticle) : List PubMedSource :=
  articles.enum.map (fun p =>
    { id := ("pubmed") ++ toString (p.1 + 1)
      url := p.2.url
      title := p.2.title
      authors := jsOrDefault (joinWith (", ") (p.2.authors.getD [])) ("[No authors listed]")
      journal := jsOrDefault (p.2.journal.getD ("")) ("[Journal not specified]")
      publicationDate := jsOrDefault (p.2.publicationDate.getD ("")) ("[Date not specified]")
      doi := p.2.doi })

/-- The reference line of one web source (deep-research.ts line 869). -/
def webSourceEntry (s : WebSource) : String :=
  ("[") ++ s.id ++ ("] ") ++ s.url

/-- The reference entry of one PubMed source (deep-research.ts line 877). -/
def pubMedSourceEntry (s : PubMedSource) : String :=
  ("[") ++ s.id ++ ("] ") ++ s.authors ++ (". ") ++ s.title ++ (". ") ++ s.journal ++ (". ") ++
    s.publicationDate ++ (". ") ++
    (match s.doi with
     | some d => if d = "" then "" else ("doi: ") ++ d
     | none => "") ++
    ("\n   [PubMed Link](") ++ s.url ++ (")")

/-- Model of createReferencesSection (deep-research.ts lines 862-882): pure
string assembly of the references section from the two source tables. -/
def createReferencesSection (webSources : List WebSource) (pubmedSources : List PubMedSource) : String :=
  let base := ("\n\n## References\n\n")
  let withWeb :=
    if 0 < webSources.length then
      base ++ ("### Web Sources\n\n") ++ joinWith ("\n\n") (webSources.map webSourceEntry)
    else base
  if 0 < pubmedSources.length then
    withWeb ++ ("\n\n### PubMed Citations\n\n") ++ joinWith ("\n\n") (pubmedSources.map pubMedSourceEntry)
  else withWeb

/-- Spec-side description of the web references block: one entry per visited
url, in index order, where the entry of the i-th url carries the citation
token [web(i+1)] followed by the url. -/
def webRefEntries (visitedUrls : List String) : List String :=
  visitedUrls.enum.map (fun p => ("[web") ++ toString (p.1 + 1) ++ ("] ") ++ p.2)

/-- The environment variables consumed by searchPubMed (pubmed.ts lines
187-214). -/
structure PubMedEnvVars where
  pubmedApiKey : Option String
  includePubMedSearch : Option String
  useMeshTerms : Option String
  meshRestrictiveness : Option String

/-- The MeSH restrictiveness enum values (pubmed.ts lines 91-95); the enum is
string-valued and the environment override is an unvalidated cast, so the
model works with plain strings. -/
def meshLow : String := "low"

/-- The balanced MeSH restrictiveness level. -/
def meshMedium : String := "medium"

/-- The narrow MeSH restrictiveness level. -/
def meshHigh : String := "high"

/-- The restrictiveness the conversion receives (pubmed.ts lines 207-209):
envRestrictiveness \x7c\x7c meshRestrictiveness, where an unset or empty
environment value is falsy and falls back to the per-call parameter. -/
def effectiveRestrictiveness (envMesh : Option String) (param : String) : String :=
  match envMesh with
  | some s => if s = "" then param else s
  | none => param

/-- The search term that searchPubMed submits to the esearch endpoint
(pubmed.ts lines 187-214).  Returns none when the search is skipped because
the API key is missing or empty or the include flag is not the string true.
The MeSH conversion (an effectful model call) is the collaborator argument
convert, applied exactly when both the per-call useMeshTerms flag and the
USE_MESH_TERMS environment variable enable it. -/
def pubMedSearchTerm (env : PubMedEnvVars) (convert : String → String → String)
    (query : String) (useMeshTerms : Bool) (meshRestrictiveness : String) : Option String :=
  match env.pubmedApiKey with
  | none => none
  | some key =>
    if key = "" then none
    else if env.includePubMedSearch ≠ some ("true") then none
    else if useMeshTerms && (env.useMeshTerms == some ("true")) then
      some (convert query (effectiveRestrictiveness env.meshRestrictiveness meshRestrictiveness))
    else some query

theorem foldl_insert_mem {α : Type} [DecidableEq α] (l : List α) (acc : List α) (x : α) :
    x ∈ l.foldl (fun acc x => if x ∈ acc then acc else acc ++ [x]) acc ↔ x ∈ acc ∨ x ∈ l := by
  induction l generalizing acc with
  | nil => simp
  | cons y ys ih =>
    simp only [List.foldl_cons]
    rw [ih]
    by_cases h : y ∈ acc
    · simp only [if_pos h, List.mem_cons]
      constructor
      · exact fun h1 => h1.imp_right Or.inr
      · rintro (h1 | rfl | h2)
        · exact Or.inl h1
        · exact Or.inl h
        · exact Or.inr h2
    · simp only [if_neg h, List.mem_append, List.mem_singleton, List.mem_cons]
      tauto

theorem mem_jsSetDedup {α : Type} [DecidableEq α] (l : List α) (x : α) :
    x ∈ jsSetDedup l ↔ x ∈ l := by
  unfold jsSetDedup
  rw [foldl_insert_mem]
  simp

theorem foldl_insert_nodup {α : Type} [DecidableEq α] (l : List α) (acc : List α) (h : acc.Nodup) :
    (l.foldl (fun acc x => if x ∈ acc then acc else acc ++ [x]) acc).Nodup := by
  induction l generalizing acc with
  | nil => simpa using h
  | cons y ys ih =>
    simp only [List.foldl_cons]
    by_cases hy : y ∈ acc
    · rw [if_pos hy]; exact ih acc h
    · rw [if_neg hy]
      refine ih _ ?_
      simp only [List.nodup_append, List.nodup_cons, List.nodup_nil]
      refine ⟨h, by simp, ?_⟩
      intro a ha
      simp only [List.mem_singleton]
      rintro rfl
      exact hy ha

theorem nodup_jsSetDedup {α : Type} [DecidableEq α] (l : List α) : (jsSetDedup l).Nodup :=
  foldl_insert_nodup l [] (by simp)

theorem foldl_dedupById_mem (l acc : List PubMedArticle) (i : String) :
    (∃ a ∈ l.foldl (fun acc a => if acc.any (fun b => b.id == a.id) then acc else acc ++ [a]) acc,
        a.id = i)
      ↔ (∃ a ∈ acc, a.id = i) ∨ ∃ a ∈ l, a.id = i := by
  induction l generalizing acc with
  | nil => simp
  | cons y ys ih =>
    simp only [List.foldl_cons]
    rw [ih]
    by_cases h : acc.any (fun b => b.id == y.id)
    · rw [if_pos h]
      rw [List.any_eq_true] at h
      obtain ⟨w, hw, hwid⟩ := h
      rw [beq_iff_eq] at hwid
      constructor
      · rintro (h1 | h2)
        · exact Or.inl h1
        · exact Or.inr ⟨h2.choose, List.mem_cons_of_mem _ h2.choose_spec.1, h2.choose_spec.2⟩
      · rintro (h1 | ⟨a, ha, hai⟩)
        · exact Or.inl h1
        · rcases List.mem_cons.mp ha with rfl | ha2
          · exact Or.inl ⟨w, hw, by rw [hwid, hai]⟩
          · exact Or.inr ⟨a, ha2, hai⟩
    · rw [if_neg h]
      constructor
      · rintro (⟨a, ha, hai⟩ | h2)
        · rcases List.mem_append.mp ha with ha1 | ha2
          · exact Or.inl ⟨a, ha1, hai⟩
          · rcases List.mem_singleton.mp ha2 with rfl
            exact Or.inr ⟨a, List.mem_cons_self _ _, hai⟩
        · exact Or.inr (h2.imp fun a h3 => ⟨List.mem_cons_of_mem _ h3.1, h3.2⟩)
      · rintro (⟨a, ha, hai⟩ | ⟨a, ha, hai⟩)
        · exact Or.inl ⟨a, List.mem_append_left _ ha, hai⟩
        · rcases List.mem_cons.mp ha with rfl | ha2
          · exact Or.inl ⟨a, List.mem_append_right _ (List.mem_singleton_self a), hai⟩
          · exact Or.inr ⟨a, ha2, hai⟩

theorem dedupById_exists_id (l : List PubMedArticle) (i : String) :
    (∃ a ∈ dedupById l, a.id = i) ↔ ∃ a ∈ l, a.id = i := by
  unfold dedupById
  rw [foldl_dedupById_mem]
  simp

theorem deepResearch_mk (breadth depth : Nat) (branches : List BranchSpec)
    (ls us : List String) (ps : List PubMedArticle) :
    deepResearch breadth depth (Oracle.mk branches) ls us ps
      = aggregate (branches.map (branchRun breadth depth ls us ps)) := by
  match depth with
  | 0 =>
    show aggregate (branches.map (terminalBranch ls us ps)) = _
    have hfun : terminalBranch ls us ps = branchRun breadth 0 ls us ps := by
      funext b
      cases b with
      | none => rfl
      | some t =>
        obtain ⟨nl, nu, np, child⟩ := t
        simp [terminalBranch, branchRun]
    rw [hfun]
  | 1 =>
    show aggregate (branches.map (terminalBranch ls us ps)) = _
    have hfun : terminalBranch ls us ps = branchRun breadth 1 ls us ps := by
      funext b
      cases b with
      | none => rfl
      | some t =>
        obtain ⟨nl, nu, np, child⟩ := t
        simp [terminalBranch, branchRun]
    rw [hfun]
  | d + 2 =>
    show aggregate _ = _
    congr 1
    apply List.map_congr_left
    intro b _
    cases b with
    | none => rfl
    | some t =>
      obtain ⟨nl, nu, np, child⟩ := t
      show deepResearch (newBreadth breadth) (d + 1) child (ls ++ nl) (us ++ nu) (ps ++ np)
        = branchRun breadth (d + 2) ls us ps (some (nl, nu, np, child))
      simp [branchRun]

/-- C5 counterexample: at detailLevel 1 and breadth 1 the computed learning
count is 5, which exceeds the branch breadth budget of 1, so the claim that
the extraction never requests more learnings than breadth supports is false as
stated. -/
theorem C5_counterexample :
    calculateLearningsCount 1 1 = 5 ∧ ¬ calculateLearningsCount 1 1 ≤ 1 := by decide

/-- C5 amended: for every detailLevel in [1,10] the learning count is the band
clamp of the source; it never exceeds breadth once breadth is at least 5 (the
largest band minimum), and it never drops below the smallest band minimum 3.
For breadth below the band minimum the minimum takes precedence and the count
exceeds the breadth budget. -/
theorem C5_learning_count_clamped (d b : Int) (hd1 : 1 ≤ d) (hd2 : d ≤ 10) (hb : 5 ≤ b) :
    calculateLearningsCount d b ≤ b ∧ 3 ≤ calculateLearningsCount d b := by
  unfold calculateLearningsCount
  constructor <;> split_ifs <;> omega

theorem C5_witness :
    (1 : Int) ≤ 5 ∧ (5 : Int) ≤ 10 ∧ (5 : Int) ≤ 7 ∧ calculateLearningsCount 5 7 ≤ 7 :=
  ⟨by decide, by decide, by decide, (C5_learning_count_clamped 5 7 (by decide) (by decide) (by decide)).1⟩

/-- C6: both the per-learning token ceiling and the report token ceiling are
monotonically non-decreasing from each detail level in [1,9] to the next,
across the three bands. -/
theorem C6_token_limits_monotone (d : Int) (h1 : 1 ≤ d) (h2 : d ≤ 9) :
    calculateTokenLimit d ≤ calculateTokenLimit (d + 1) ∧
      calculateReportTokenLimit d ≤ calculateReportTokenLimit (d + 1) := by
  unfold calculateTokenLimit calculateReportTokenLimit
  constructor <;> split_ifs <;> omega

theorem C6_witness :
    (1 : Int) ≤ 7 ∧ (7 : Int) ≤ 9 ∧ calculateTokenLimit 7 ≤ calculateTokenLimit 8 :=
  ⟨by decide, by decide, (C6_token_limits_monotone 7 (by decide) (by decide)).1⟩

/-- C3: for every breadth of at least 1 the child breadth ceil(breadth * 0.75)
is at least 1 and at most breadth; the Nat formula of the embedding equals the
rational ceiling of breadth * 0.75; and a successful branch recurses exactly
when depth - 1 > 0, passing child breadth ceil(breadth * 0.75) and depth
depth - 1, while a branch with depth - 1 = 0 is terminal and returns its
extended accumulator directly. -/
theorem C3_child_breadth_depth (b : Nat) (hb : 1 ≤ b) :
    1 ≤ newBreadth b ∧ newBreadth b ≤ b ∧
      ((newBreadth b : Int) = Int.ceil ((b : ℚ) * (0.75 : ℚ))) ∧
      (∀ (depth : Nat) (nl nu : List String) (np : List PubMedArticle) (child : Oracle)
          (ls us : List String) (ps : List PubMedArticle),
        (0 < depth - 1 →
          branchRun b depth ls us ps (some (nl, nu, np, child))
            = deepResearch (newBreadth b) (depth - 1) child (ls ++ nl) (us ++ nu) (ps ++ np)) ∧
        (depth - 1 = 0 →
          branchRun b depth ls us ps (some (nl, nu, np, child)) = ⟨ls ++ nl, us ++ nu, ps ++ np⟩)) := by
  refine ⟨?_, ?_, ?_, ?_⟩
  · unfold newBreadth; omega
  · unfold newBreadth; omega
  · have hk1 : 4 * newBreadth b ≤ 3 * b + 3 := by unfold newBreadth; omega
    have hk2 : 3 * b ≤ 4 * newBreadth b := by unfold newBreadth; omega
    rw [show ((0.75 : ℚ)) = 3 / 4 by norm_num, eq_comm, Int.ceil_eq_iff]
    have hq1 : (4 : ℚ) * (newBreadth b : ℚ) ≤ 3 * (b : ℚ) + 3 := by exact_mod_cast hk1
    have hq2 : (3 : ℚ) * (b : ℚ) ≤ 4 * (newBreadth b : ℚ) := by exact_mod_cast hk2
    constructor
    · push_cast
      linarith
    · push_cast
      linarith
  · intro depth nl nu np child ls us ps
    constructor
    · intro h
      simp [branchRun, h]
    · intro h
      simp [branchRun, h]

theorem C3_witness : 1 ≤ newBreadth 4 ∧ newBreadth 4 ≤ 4 :=
  ⟨(C3_child_breadth_depth 4 (by decide)).1, (C3_child_breadth_depth 4 (by decide)).2.1⟩

theorem aggregate_mem_learnings (results : List ResearchResult) (r : ResearchResult) (x : String)
    (hr : r ∈ results) (hx : x ∈ r.learnings) : x ∈ (aggregate results).learnings := by
  unfold aggregate
  simp only [mem_jsSetDedup, List.mem_flatMap]
  exact ⟨r, hr, hx⟩

theorem aggregate_mem_visitedUrls (results : List ResearchResult) (r : ResearchResult) (u : String)
    (hr : r ∈ results) (hu : u ∈ r.visitedUrls) : u ∈ (aggregate results).visitedUrls := by
  unfold aggregate
  simp only [mem_jsSetDedup, List.mem_flatMap]
  exact ⟨r, hr, hu⟩

/-- C1 amended: the result of deepResearch extends the input accumulator
provided the oracle contains a path of successful branches: some branch at the
top level succeeds and, whenever that branch recurses, its child level again
contains such a path down to a terminal branch.  Without that condition the
accumulator can be dropped, as the counterexample shows. -/
theorem C1_accumulator_extension (depth : Nat) :
    ∀ (breadth : Nat) (o : Oracle) (ls us : List String) (ps : List PubMedArticle),
      successPath depth o →
      (∀ x ∈ ls, x ∈ (deepResearch breadth depth o ls us ps).learnings) ∧
      (∀ u ∈ us, u ∈ (deepResearch breadth depth o ls us ps).visitedUrls) := by
  induction depth using Nat.strong_induction_on with
  | _ depth ih =>
    intro breadth o ls us ps hsp
    obtain ⟨branches⟩ := o
    match depth, hsp with
    | 0, hsp =>
      simp only [successPath] at hsp
      obtain ⟨nl, nu, np, child, hmem⟩ := hsp
      have hr : branchRun breadth 0 ls us ps (some (nl, nu, np, child))
          = ⟨ls ++ nl, us ++ nu, ps ++ np⟩ := by
        simp [branchRun]
      constructor
      · intro x hx
        rw [deepResearch_mk]
        refine aggregate_mem_learnings _ _ x (List.mem_map_of_mem _ hmem) ?_
        rw [hr]
        exact List.mem_append_left _ hx
      · intro u hu
        rw [deepResearch_mk]
        refine aggregate_mem_visitedUrls _ _ u (List.mem_map_of_mem _ hmem) ?_
        rw [hr]
        exact List.mem_append_left _ hu
    | 1, hsp =>
      simp only [successPath] at hsp
      obtain ⟨nl, nu, np, child, hmem⟩ := hsp
      have hr : branchRun breadth 1 ls us ps (some (nl, nu, np, child))
          = ⟨ls ++ nl, us ++ nu, ps ++ np⟩ := by
        simp [branchRun]
      constructor
      · intro x hx
        rw [deepResearch_mk]
        refine aggregate_mem_learnings _ _ x (List.mem_map_of_mem _ hmem) ?_
        rw [hr]
        exact List.mem_append_left _ hx
      · intro u hu
        rw [deepResearch_mk]
        refine aggregate_mem_visitedUrls _ _ u (List.mem_map_of_mem _ hmem) ?_
        rw [hr]
        exact List.mem_append_left _ hu
    | d + 2, hsp =>
      simp only [successPath] at hsp
      obtain ⟨nl, nu, np, child, hmem, hchild⟩ := hsp
      have hr : branchRun breadth (d + 2) ls us ps (some (nl, nu, np, child))
          = deepResearch (newBreadth breadth) (d + 1) child (ls ++ nl) (us ++ nu) (ps ++ np) := by
        simp [branchRun]
      have hrec := ih (d + 1) (by omega) (newBreadth breadth) child (ls ++ nl) (us ++ nu) (ps ++ np) hchild
      constructor
      · intro x hx
        rw [deepResearch_mk]
        refine aggregate_mem_learnings _ _ x (List.mem_map_of_mem _ hmem) ?_
        rw [hr]
        exact hrec.1 x (List.mem_append_left _ hx)
      · intro u hu
        rw [deepResearch_mk]
        refine aggregate_mem_visitedUrls _ _ u (List.mem_map_of_mem _ hmem) ?_
        rw [hr]
        exact hrec.2 u (List.mem_append_left _ hu)

/-- C1 counterexample: with input accumulator learnings ["a"] and visitedUrls
["u"] and a single failing branch, deepResearch returns empty learnings and
urls, so the input accumulator does not survive into the returned result and
the claim is false as stated. -/
theorem C1_counterexample :
    (deepResearch 1 1 (Oracle.mk [none]) ([("a")]) ([("u")]) []).learnings = [] ∧
    (deepResearch 1 1 (Oracle.mk [none]) ([("a")]) ([("u")]) []).visitedUrls = [] ∧
    ¬ ("a") ∈ (deepResearch 1 1 (Oracle.mk [none]) ([("a")]) ([("u")]) []).learnings ∧
    ¬ ("u") ∈ (deepResearch 1 1 (Oracle.mk [none]) ([("a")]) ([("u")]) []).visitedUrls := by
  decide

theorem C1_witness :
    ("a") ∈ (deepResearch 1 1 (Oracle.mk [some ([("x")], [("v")], [], Oracle.mk [])])
      ([("a")]) ([("u")]) []).learnings ∧
    ("u") ∈ (deepResearch 1 1 (Oracle.mk [some ([("x")], [("v")], [], Oracle.mk [])])
      ([("a")]) ([("u")]) []).visitedUrls := by
  have hsp : successPath 1 (Oracle.mk [some ([("x")], [("v")], [], Oracle.mk [])]) := by
    simp only [successPath]
    exact ⟨[("x")], [("v")], [], Oracle.mk [], List.mem_cons_self _ _⟩
  exact ⟨(C1_accumulator_extension 1 1 _ _ _ _ hsp).1 ("a") (List.mem_cons_self _ _),
    (C1_accumulator_extension 1 1 _ _ _ _ hsp).2 ("u") (List.mem_cons_self _ _)⟩

/-- C2: a branch whose search or generation call throws contributes the empty
result (no learnings, no urls, no biomedical sources) without propagating the
exception, and the learnings and urls of every other branch of the level are
still present in the aggregated result of deepResearch. -/
theorem C2_branch_failure_isolation (breadth depth : Nat) (ls us : List String)
    (ps : List PubMedArticle) :
    branchRun breadth depth ls us ps none = ⟨[], [], []⟩ ∧
    ∀ (branches : List BranchSpec) (b : BranchSpec), b ∈ branches →
      (∀ x ∈ (branchRun breadth depth ls us ps b).learnings,
        x ∈ (deepResearch breadth depth (Oracle.mk branches) ls us ps).learnings) ∧
      (∀ u ∈ (branchRun breadth depth ls us ps b).visitedUrls,
        u ∈ (deepResearch breadth depth (Oracle.mk branches) ls us ps).visitedUrls) := by
  constructor
  · rfl
  · intro branches b hb
    constructor
    · intro x hx
      rw [deepResearch_mk]
      exact aggregate_mem_learnings _ _ x (List.mem_map_of_mem _ hb) hx
    · intro u hu
      rw [deepResearch_mk]
      exact aggregate_mem_visitedUrls _ _ u (List.mem_map_of_mem _ hb) hu

theorem C2_witness :
    branchRun 2 1 [] [] [] none = ⟨[], [], []⟩ ∧
    ("l1") ∈ (deepResearch 2 1
      (Oracle.mk [some ([("l1")], [("u1")], [], Oracle.mk []), none]) [] [] []).learnings := by
  refine ⟨(C2_branch_failure_isolation 2 1 [] [] []).1, ?_⟩
  refine ((C2_branch_failure_isolation 2 1 [] [] []).2
    [some ([("l1")], [("u1")], [], Oracle.mk []), none]
    (some ([("l1")], [("u1")], [], Oracle.mk []))
    (List.mem_cons_self _ _)).1 ("l1") ?_
  decide

/-- C7: the per-level aggregation is order-independent and duplicate-free:
permuting the list of branch results leaves the membership of learnings,
visited urls and biomedical source ids unchanged, and the aggregated learnings
and visitedUrls lists contain no duplicates. -/
theorem C7_aggregation_commutative_dedup (rs rs' : List ResearchResult) (hperm : rs.Perm rs') :
    (∀ x, x ∈ (aggregate rs).learnings ↔ x ∈ (aggregate rs').learnings) ∧
    (∀ u, u ∈ (aggregate rs).visitedUrls ↔ u ∈ (aggregate rs').visitedUrls) ∧
    (∀ i, (∃ a ∈ (aggregate rs).pubMedArticles, a.id = i)
        ↔ ∃ a ∈ (aggregate rs').pubMedArticles, a.id = i) ∧
    (aggregate rs).learnings.Nodup ∧ (aggregate rs).visitedUrls.Nodup := by
  refine ⟨?_, ?_, ?_, ?_, ?_⟩
  · intro x
    unfold aggregate
    simp only [mem_jsSetDedup, List.mem_flatMap]
    constructor
    · rintro ⟨r, hr, hx⟩
      exact ⟨r, hperm.mem_iff.mp hr, hx⟩
    · rintro ⟨r, hr, hx⟩
      exact ⟨r, hperm.mem_iff.mpr hr, hx⟩
  · intro u
    unfold aggregate
    simp only [mem_jsSetDedup, List.mem_flatMap]
    constructor
    · rintro ⟨r, hr, hu⟩
      exact ⟨r, hperm.mem_iff.mp hr, hu⟩
    · rintro ⟨r, hr, hu⟩
      exact ⟨r, hperm.mem_iff.mpr hr, hu⟩
  · intro i
    unfold aggregate
    rw [dedupById_exists_id, dedupById_exists_id]
    simp only [List.mem_flatMap]
    constructor
    · rintro ⟨a, ⟨r, hr, ha⟩, hai⟩
      exact ⟨a, ⟨r, hperm.mem_iff.mp hr, ha⟩, hai⟩
    · rintro ⟨a, ⟨r, hr, ha⟩, hai⟩
      exact ⟨a, ⟨r, hperm.mem_iff.mpr hr, ha⟩, hai⟩
  · exact nodup_jsSetDedup _
  · exact nodup_jsSetDedup _

theorem C7_witness :
    (aggregate [⟨[("a")], [], []⟩, ⟨[("b")], [], []⟩]).learnings.Nodup ∧
    (("a") ∈ (aggregate [⟨[("a")], [], []⟩, ⟨[("b")], [], []⟩]).learnings ↔
      ("a") ∈ (aggregate [⟨[("b")], [], []⟩, ⟨[("a")], [], []⟩]).learnings) :=
  ⟨(C7_aggregation_commutative_dedup
      [⟨[("a")], [], []⟩, ⟨[("b")], [], []⟩] [⟨[("b")], [], []⟩, ⟨[("a")], [], []⟩]
      (List.Perm.swap _ _ [])).2.2.2.1,
   (C7_aggregation_commutative_dedup
      [⟨[("a")], [], []⟩, ⟨[("b")], [], []⟩] [⟨[("b")], [], []⟩, ⟨[("a")], [], []⟩]
      (List.Perm.swap _ _ [])).1 ("a")⟩

/-- C4: generateSerpQueries is a total function of the collaborator outcomes
(every throwing path of the source is caught), its result never exceeds
numQueries entries, and when structured generation, fenced-block extraction
and text parsing all fail it returns the non-empty deterministic list of
generic queries built by string templating on the topic; the ultimate
catch-all list and the empty-parse default list are the same templated
queries. -/
theorem C4_query_planner_fallback (env : QueryGenEnv) (topic : String) (n : Nat) (hn : 1 ≤ n) :
    (generateSerpQueries env topic n).length ≤ n ∧
    (generateSerpQueries (QueryGenEnv.structuredErr none none) topic n
        = (genericQueries topic).take n ∧
      generateSerpQueries (QueryGenEnv.structuredErr none none) topic n ≠ []) ∧
    (∀ content : String, (content = "" ∨ parseQueriesFromText content = []) →
      generateSerpQueries (QueryGenEnv.structuredErr none (some content)) topic n
          = (defaultQueries topic).take n ∧
      generateSerpQueries (QueryGenEnv.structuredErr none (some content)) topic n ≠ []) ∧
    genericQueries topic = defaultQueries topic := by
  obtain ⟨m, rfl⟩ : ∃ m, n = m + 1 := ⟨n - 1, by omega⟩
  refine ⟨?_, ⟨rfl, ?_⟩, ?_, rfl⟩
  · cases env with
    | structuredOk qs => simp [generateSerpQueries, List.length_take]
    | structuredErr f t =>
      cases f with
      | some qs => simp [generateSerpQueries, List.length_take]
      | none =>
        cases t with
        | some content =>
          simp only [generateSerpQueries, List.isEmpty_iff]
          split_ifs <;> simp [List.length_take]
        | none => simp [generateSerpQueries, List.length_take]
  · simp [generateSerpQueries, genericQueries, List.take_succ_cons]
  · intro content hc
    have hq : (if content = "" then [] else parseQueriesFromText content) = ([] : List SerpQuery) := by
      rcases hc with h | h
      · simp [h]
      · simp [h]
    constructor
    · simp [generateSerpQueries, hq]
    · simp [generateSerpQueries, hq, defaultQueries, List.take_succ_cons]

theorem C4_witness :
    (1 : Nat) ≤ 1 ∧
    (generateSerpQueries (QueryGenEnv.structuredErr none none) ("agent design") 1).length ≤ 1 ∧
    generateSerpQueries (QueryGenEnv.structuredErr none none) ("agent design") 1 ≠ [] :=
  ⟨le_refl 1,
    (C4_query_planner_fallback (QueryGenEnv.structuredErr none none) ("agent design") 1 (le_refl 1)).1,
    (C4_query_planner_fallback (QueryGenEnv.structuredErr none none) ("agent design") 1 (le_refl 1)).2.1.2⟩

/-- C9: the references section is pure string assembly from the source tables;
the web block carries exactly one entry per visited url, in index order, the
i-th entry being the token [web(i+1)] followed by the url, and the PubMed
block carries exactly one citation entry per article, so every token of the
source table resolves to a references entry. -/
theorem C9_references_section (urls : List String) (articles : List PubMedArticle) :
    (mkWebSources urls).map webSourceEntry = webRefEntries urls ∧
    (webRefEntries urls).length = urls.length ∧
    (∀ i : Nat, (webRefEntries urls)[i]?
        = (urls[i]?).map (fun u => ("[web") ++ toString (i + 1) ++ ("] ") ++ u)) ∧
    (mkPubMedSources articles).length = articles.length ∧
    (urls ≠ [] → articles ≠ [] →
      createReferencesSection (mkWebSources urls) (mkPubMedSources articles)
        = ("\n\n## References\n\n") ++ ("### Web Sources\n\n")
            ++ joinWith ("\n\n") (webRefEntries urls)
            ++ ("\n\n### PubMed Citations\n\n")
            ++ joinWith ("\n\n") ((mkPubMedSources articles).map pubMedSourceEntry)) := by
  have hmap : (mkWebSources urls).map webSourceEntry = webRefEntries urls := by
    unfold mkWebSources webRefEntries webSourceEntry
    rw [List.map_map]
    apply List.map_congr_left
    intro p _
    obtain ⟨i, u⟩ := p
    simp only [Function.comp_apply]
    rw [← String.append_assoc]
    rfl
  refine ⟨hmap, ?_, ?_, ?_, ?_⟩
  · unfold webRefEntries
    rw [List.length_map, List.enum_length]
  · intro i
    unfold webRefEntries
    rw [List.getElem?_map, List.getElem?_enum]
    cases urls[i]? <;> rfl
  · unfold mkPubMedSources
    rw [List.length_map, List.enum_length]
  · intro hu ha
    have h1 : 0 < (mkWebSources urls).length := by
      unfold mkWebSources
      rw [List.length_map, List.enum_length]
      exact List.length_pos.mpr hu
    have h2 : 0 < (mkPubMedSources articles).length := by
      unfold mkPubMedSources
      rw [List.length_map, List.enum_length]
      exact List.length_pos.mpr ha
    unfold createReferencesSection
    rw [if_pos h2, if_pos h1, hmap]

theorem C9_witness :
    createReferencesSection (mkWebSources [("u1")])
        (mkPubMedSources [⟨("5"), ("T"), none, none, none, none, none, ("http://x")⟩])
      = ("\n\n## References\n\n") ++ ("### Web Sources\n\n")
          ++ joinWith ("\n\n") (webRefEntries [("u1")])
          ++ ("\n\n### PubMed Citations\n\n")
          ++ joinWith ("\n\n")
            ((mkPubMedSources [⟨("5"), ("T"), none, none, none, none, none, ("http://x")⟩]).map
              pubMedSourceEntry) :=
  (C9_references_section [("u1")] [⟨("5"), ("T"), none, none, none, none, none, ("http://x")⟩]).2.2.2.2
    (by decide) (by decide)

/-- C10: when the PubMed search actually runs (API key present, include flag
set) with MeSH terms enabled both per call and through USE_MESH_TERMS, a
non-empty MESH_RESTRICTIVENESS environment value is what the MeSH conversion
receives, and the per-call meshRestrictiveness parameter is ignored (changing
it does not change the search term); the parameter takes effect exactly when
the environment variable is unset or empty. -/
theorem C10_mesh_env_precedence (env : PubMedEnvVars) (convert : String → String → String)
    (q p1 p2 : String) (key : String)
    (hkey : env.pubmedApiKey = some key) (hk : key ≠ "")
    (hinc : env.includePubMedSearch = some ("true"))
    (husep : env.useMeshTerms = some ("true")) :
    (∀ s, env.meshRestrictiveness = some s → s ≠ "" →
      pubMedSearchTerm env convert q true p1 = some (convert q s) ∧
      pubMedSearchTerm env convert q true p1 = pubMedSearchTerm env convert q true p2) ∧
    ((env.meshRestrictiveness = none ∨ env.meshRestrictiveness = some ("")) →
      pubMedSearchTerm env convert q true p1 = some (convert q p1)) := by
  constructor
  · intro s hs hsne
    unfold pubMedSearchTerm effectiveRestrictiveness
    rw [hkey]
    constructor <;> simp [hk, hinc, husep, hs, hsne]
  · intro hmr
    unfold pubMedSearchTerm effectiveRestrictiveness
    rw [hkey]
    rcases hmr with h | h <;> simp [hk, hinc, husep, h]

theorem C10_witness :
    pubMedSearchTerm ⟨some ("k"), some ("true"), some ("true"), some ("high")⟩
        (fun q r => q ++ ("|") ++ r) ("cancer") true ("medium")
      = some (("cancer") ++ ("|") ++ ("high")) ∧
    pubMedSearchTerm ⟨some ("k"), some ("true"), some ("true"), some ("high")⟩
        (fun q r => q ++ ("|") ++ r) ("cancer") true ("medium")
      = pubMedSearchTerm ⟨some ("k"), some ("true"), some ("true"), some ("high")⟩
        (fun q r => q ++ ("|") ++ r) ("cancer") true ("low") :=
  ⟨((C10_mesh_env_precedence _ (fun q r => q ++ ("|") ++ r) ("cancer") ("medium") ("low") ("k")
      rfl (by decide) rfl rfl).1 ("high") rfl (by decide)).1,
   ((C10_mesh_env_precedence _ (fun q r => q ++ ("|") ++ r) ("cancer") ("medium") ("low") ("k")
      rfl (by decide) rfl rfl).1 ("high") rfl (by decide)).2⟩

theorem firstIdxOf_none_of_ws (c : Char) (hc : isJsWs c = false) :
    ∀ cs : List Char, (∀ d ∈ cs, isJsWs d = true) → firstIdxOf c cs = none := by
  intro cs
  induction cs with
  | nil => intro _; rfl
  | cons d rest ih =>
    intro h
    have hd : (d == c) = false := by
      rw [beq_eq_false_iff_ne]
      intro hdc
      rw [hdc] at h
      have := h c (List.mem_cons_self _ _)
      rw [this] at hc
      simp at hc
    simp only [firstIdxOf, hd, Bool.false_eq_true, if_false]
    rw [ih (fun x hx => h x (List.mem_cons_of_mem _ hx))]
    rfl

theorem splitSectionsAux_ws (fuel : Nat) : ∀ (cs cur : List Char),
    (∀ c ∈ cs, isJsWs c = true) → (∀ c ∈ cur, isJsWs c = true) →
    ∀ sec ∈ splitSectionsAux fuel cs cur, ∀ c ∈ sec, isJsWs c = true := by
  induction fuel with
  | zero =>
    intro cs cur hcs hcur sec hsec c hc
    cases cs with
    | nil =>
      simp only [splitSectionsAux, List.mem_singleton] at hsec
      subst hsec
      exact hcur c (List.mem_reverse.mp hc)
    | cons x rest =>
      simp only [splitSectionsAux, List.mem_singleton] at hsec
      subst hsec
      rcases List.mem_append.mp hc with h1 | h2
      · exact hcur c (List.mem_reverse.mp h1)
      · exact hcs c h2
  | succ fuel ih =>
    intro cs cur hcs hcur sec hsec c hc
    cases cs with
    | nil =>
      simp only [splitSectionsAux, List.mem_singleton] at hsec
      subst hsec
      exact hcur c (List.mem_reverse.mp hc)
    | cons x rest =>
      simp only [splitSectionsAux] at hsec
      by_cases hcond : (x == ('\n') && (rest.takeWhile isJsWs).contains ('\n')) = true
      · rw [if_pos hcond] at hsec
        rcases List.mem_cons.mp hsec with rfl | hrec
        · exact hcur c (List.mem_reverse.mp hc)
        · refine ih _ [] ?_ (by simp) sec hrec c hc
          intro y hy
          exact hcs y (List.mem_cons_of_mem _ (List.drop_subset _ _ hy))
      · rw [if_neg hcond] at hsec
        refine ih rest (x :: cur) (fun y hy => hcs y (List.mem_cons_of_mem _ hy)) ?_ sec hsec c hc
        intro y hy
        rcases List.mem_cons.mp hy with rfl | hy2
        · exact hcs y (List.mem_cons_self _ _)
        · exact hcur y hy2

theorem jsTrim_blank (s : String) (h : ∀ c ∈ s.data, isJsWs c = true) : jsTrim s = "" := by
  unfold jsTrim jsTrimList
  have h1 : s.data.dropWhile isJsWs = [] := by
    rw [List.dropWhile_eq_nil_iff]
    exact h
  rw [h1]
  rfl

theorem sectionsLoop_blank (d : Int) (n m : Nat) (secs : List String)
    (h : ∀ s ∈ secs, jsTrim s = "") :
    sectionsLoop d n m secs [] [] [] = ([], [], []) := by
  induction secs with
  | nil => rfl
  | cons s rest ih =>
    have hs : jsTrim s = "" := h s (List.mem_cons_self _ _)
    simp only [sectionsLoop, hs, if_pos]
    exact ih (fun x hx => h x (List.mem_cons_of_mem _ hx))

/-- C8 counterexample: the prose response "hello world" contains no JSON
object and no numbered-list or labeled-field structure, yet parseTextLearnings
does not return only the caller-supplied default: the catch-all of the section
loop turns the unstructured prose into an extracted learning, so the claim is
false as stated.  The generic follow-up questions are still returned. -/
theorem C8_counterexample :
    parseTextLearnings (fun _ => none) ("hello world") 1 5 3
      = ⟨[("hello world")], genericFollowUps, []⟩ ∧
    (parseTextLearnings (fun _ => none) ("hello world") 1 5 3).learnings ≠ [] := by
  decide

/-- C8 amended: parseTextLearnings never raises (it is a total function of the
response text and the JSON.parse collaborator), and it returns exactly the
caller-supplied default - no learnings, no detailed learnings, the generic
follow-up questions - precisely on responses with no content at all, that is,
whitespace-only text; a non-blank unstructured response additionally yields
its prose sections as plain learnings (up to numLearnings). -/
theorem C8_default_on_blank_input (jp : String → Option JsonLearnings) (d : Int) (n m : Nat)
    (text : String) (h : ∀ c ∈ text.data, isJsWs c = true) :
    parseTextLearnings jp text d n m = ⟨[], genericFollowUps.take m, []⟩ := by
  unfold parseTextLearnings
  have hbrace : firstIdxOf ('\x7b') text.data = none :=
    firstIdxOf_none_of_ws ('\x7b') (by decide) text.data h
  have hbrace2 : lastIdxOf ('\x7d') text.data = none := by
    unfold lastIdxOf
    rw [firstIdxOf_none_of_ws ('\x7d') (by decide) _ (fun c hc => h c (List.mem_reverse.mp hc))]
    rfl
  rw [hbrace, hbrace2]
  have hsecs : ∀ s ∈ splitSections text, jsTrim s = "" := by
    intro s hs
    unfold splitSections at hs
    rcases List.mem_map.mp hs with ⟨sec, hsec, rfl⟩
    refine jsTrim_blank _ ?_
    intro c hc
    exact splitSectionsAux_ws text.data.length text.data [] h (by simp) sec hsec c hc
  rw [sectionsLoop_blank d n m _ hsecs]
  simp

theorem C8_witness :
    (∀ c ∈ (" \n \n ").data, isJsWs c = true) ∧
    parseTextLearnings (fun _ => none) (" \n \n ") 1 5 3 = ⟨[], genericFollowUps.take 3, []⟩ :=
  ⟨by decide, C8_default_on_blank_input (fun _ => none) 1 5 3 (" \n \n ") (by decide)⟩
